import Mathlib

/-!
Shallow embedding of the luminiteq WhatsApp-backend core
(webhook ingestion in api/main.py, message/FAQ schema in api/models.py and
alembic/versions/0001_initial.py and 0002_add_faq_table_with_vector.py,
Celery reply worker in api/tasks.py, embedding client in api/ai.py),
together with proofs of the specification's testable properties.
-/

/-- Parsed JSON value, the result of FastAPI's `request.json()`
(`main.py` line 105).  Objects carry their key/value pairs with distinct
keys, as produced by Python's JSON parser. -/
inductive JValue where
  | null : JValue
  | jbool (b : Bool) : JValue
  | num (n : Int) : JValue
  | str (s : String) : JValue
  | arr (xs : List JValue) : JValue
  | obj (fs : List (String × JValue)) : JValue
  deriving Repr

/-- Unhandled Python exception classes relevant to the webhook handler:
attribute access on a non-dict, iteration over a non-iterable, and a
database-driver error from comparing a string column with an
incompatible parameter type. -/
inductive PyExc where
  | attributeError : PyExc
  | typeError : PyExc
  | dbError : PyExc
  deriving DecidableEq, Repr

/-- Python `v.get(key, default)`: defined only on dicts; on any other
value an `AttributeError` is raised (`main.py` lines 112-130 call `.get`
on values taken from the raw payload). -/
def pyGet (v : JValue) (key : String) (dflt : JValue) : Except PyExc JValue :=
  match v with
  | .obj fs => .ok ((fs.lookup key).getD dflt)
  | _ => .error .attributeError

/-- Python `for x in v`: lists yield their elements, strings their
one-character substrings, dicts their keys; every other value raises
`TypeError`. -/
def pyIter (v : JValue) : Except PyExc (List JValue) :=
  match v with
  | .arr xs => .ok xs
  | .str s => .ok (s.toList.map (fun c => .str (String.mk [c])))
  | .obj fs => .ok (fs.map (fun p => .str p.1))
  | _ => .error .typeError

/-- Python truthiness of a parsed JSON value, used by
`if not phone_id` (`main.py` line 118) and
`if not all([sender_phone, text_content, whatsapp_msg_id])` (line 132). -/
def truthy (v : JValue) : Bool :=
  match v with
  | .null => false
  | .jbool b => b
  | .num n => n != 0
  | .str s => s ≠ ""
  | .arr xs => !xs.isEmpty
  | .obj fs => !fs.isEmpty

/-- Row of the `tenants` table (`models.py` lines 11-16). -/
structure Tenant where
  id : String
  phone_id : String
  wh_token : String
  system_prompt : String
  deriving DecidableEq, Repr

/-- Row of the `messages` table.  Per the authoritative schema
(migration `0001_initial.py`): `wa_msg_id` is a nullable string column
with a UNIQUE constraint (SQL uniqueness does not apply to NULLs),
`role` is the enum `user`/`assistant`. -/
structure MessageRow where
  id : Nat
  tenant_id : String
  wa_msg_id : Option String
  role : String
  text : String
  deriving DecidableEq, Repr

/-- Row of the `faqs` table (`models.py` lines 27-35, migration
`0002_add_faq_table_with_vector.py`): embedding is a nullable pgvector
column.  Vector components are modelled as rationals. -/
structure FaqRow where
  id : Nat
  tenant_id : String
  question : String
  answer : String
  embedding : Option (List ℚ)
  deriving DecidableEq, Repr

/-- The relational store.  `nextMsgId` models the autoincrement sequence
behind `messages.id`. -/
structure DB where
  tenants : List Tenant
  messages : List MessageRow
  faqs : List FaqRow
  nextMsgId : Nat
  deriving DecidableEq, Repr

/-- Number of message rows carrying the external WhatsApp id `w`. -/
def waCount (db : DB) (w : String) : Nat :=
  (db.messages.filter (fun m => m.wa_msg_id = some w)).length

/-- Whether some message row already carries the external id `w`
(the duplicate guard query of `main.py` line 137). -/
def waTaken (db : DB) (w : String) : Bool :=
  db.messages.any (fun m => m.wa_msg_id = some w)

/-- Well-formedness of the store: message ids strictly increase in
insertion order, the autoincrement counter is ahead of every row, and
the UNIQUE constraint on `wa_msg_id` holds (ignoring NULLs). -/
def WFdb (db : DB) : Prop :=
  db.messages.Pairwise (fun a b => a.id < b.id) ∧
  (∀ m ∈ db.messages, m.id < db.nextMsgId) ∧
  db.messages.Pairwise (fun a b => a.wa_msg_id = none ∨ a.wa_msg_id ≠ b.wa_msg_id)

/-- Failure of an INSERT: `IntegrityError` for a uniqueness violation
(`main.py` line 154), any other database exception (`main.py` line 158). -/
inductive InsertErr where
  | integrityError : InsertErr
  | otherError : InsertErr
  deriving DecidableEq, Repr

/-- The insert-and-commit of the inbound message (`main.py` lines
143-152).  The UNIQUE constraint on `wa_msg_id` rejects a duplicate id;
a non-string text body is rejected by the driver when bound to the
`Text` column; `oracleFail` stands for any other exception raised
during `add`/`commit`.  All three outcomes are caught by the handler,
which rolls back (discarding the pending row) and continues. -/
def insertUserMessage (db : DB) (tid w : String) (txt : JValue) (oracleFail : Bool) :
    Except InsertErr DB :=
  if waTaken db w then .error .integrityError
  else
    match txt with
    | .str t =>
        if oracleFail then .error .otherError
        else .ok { db with
                    messages := db.messages ++ [⟨db.nextMsgId, tid, some w, "user", t⟩],
                    nextMsgId := db.nextMsgId + 1 }
    | _ => .error .otherError

/-- The insert-and-commit of the worker's assistant reply
(`tasks.py` lines 75-81): no `wa_msg_id` is set, so the row carries
NULL there and the UNIQUE constraint never fires; the insert always
succeeds. -/
def insertAssistantMessage (db : DB) (tid txt : String) : DB :=
  { db with
      messages := db.messages ++ [⟨db.nextMsgId, tid, none, "assistant", txt⟩],
      nextMsgId := db.nextMsgId + 1 }

/-- Modelled from the spec: `deps.py` (providing `tenant_by_phone_id`)
is absent from the sources; the spec's persistence contract is
`get_tenant_by_phone_id(phone_id) -> Tenant|None`, a total lookup of
the tenant whose unique `phone_id` equals the given value. -/
def tenant_by_phone_id (phoneId : JValue) (db : DB) : Option Tenant :=
  db.tenants.find? (fun t =>
    match phoneId with
    | .str s => s == t.phone_id
    | _ => false)

/-- Role/content pair of the OpenAI chat context (`main.py` lines
172-174): the system prompt and the persisted texts are all strings. -/
structure ChatMsg where
  role : String
  content : String
  deriving DecidableEq, Repr

/-- The Reply Job handed to the background reply task (`main.py` lines
177-183): the tenant's routing data captured at enqueue time, the
assembled chat context, and the sender's phone value from the payload. -/
structure ReplyJob where
  tenant : Tenant
  chat_context : List ChatMsg
  sender_phone : JValue
  deriving Repr

/-- Messages of one tenant in table order
(`db.query(Message).filter_by(tenant_id=...)`, `main.py` line 166). -/
def tenantMessages (db : DB) (tid : String) : List MessageRow :=
  db.messages.filter (fun m => m.tenant_id = tid)

/-- SQL `ORDER BY id DESC` (`main.py` line 167), modelled as a sort by
descending id. -/
def orderByIdDesc (l : List MessageRow) : List MessageRow :=
  List.insertionSort (fun a b => b.id ≤ a.id) l

/-- The history query of `main.py` lines 164-170: newest 10 rows of the
tenant in descending id order, then reversed into chronological order. -/
def historyMessages (db : DB) (tid : String) : List MessageRow :=
  ((orderByIdDesc (tenantMessages db tid)).take 10).reverse

/-- The chat context built at `main.py` lines 172-174: the tenant's
system prompt first, then the history rows projected to role/content. -/
def chatForAI (t : Tenant) (db : DB) : List ChatMsg :=
  ⟨"system", t.system_prompt⟩ :: (historyMessages db t.id).map (fun m => ⟨m.role, m.text⟩)

/-- State threaded through the nested payload loops of the handler:
the store, the reply jobs enqueued so far, and the number of insert
attempts made so far (indexing the failure oracle). -/
structure HandlerState where
  db : DB
  jobs : List ReplyJob
  attempts : Nat
  deriving Repr

/-- Body of the innermost loop of `webhook_handler` (`main.py` lines
127-184), for one element of the payload's `messages` list.  `oracle n`
tells whether the n-th insert attempt of this request raises a generic
exception.  A falsy field skips the message; a duplicate external id
skips it; an insert failure rolls back and continues; a truthy
non-string external id makes the duplicate-guard query itself raise,
which no `except` catches. -/
def processMessage (oracle : Nat → Bool) (tenant : Tenant) (st : HandlerState)
    (msg_data : JValue) : Except PyExc HandlerState :=
  match pyGet msg_data "from" .null with
  | .error e => .error e
  | .ok sender_phone =>
    match pyGet msg_data "text" (.obj []) with
    | .error e => .error e
    | .ok textObj =>
      match pyGet textObj "body" (.str "") with
      | .error e => .error e
      | .ok text_content =>
        match pyGet msg_data "id" .null with
        | .error e => .error e
        | .ok whatsapp_msg_id =>
          if !(truthy sender_phone && truthy text_content && truthy whatsapp_msg_id) then
            .ok st
          else
            match whatsapp_msg_id with
            | .str w =>
                if waTaken st.db w then .ok st
                else
                  match insertUserMessage st.db tenant.id w text_content (oracle st.attempts) with
                  | .error _ => .ok { st with attempts := st.attempts + 1 }
                  | .ok db' =>
                      .ok { db := db'
                            jobs := st.jobs ++ [⟨tenant, chatForAI tenant db', sender_phone⟩]
                            attempts := st.attempts + 1 }
            | _ => .error .dbError

/-- Body of the `changes` loop (`main.py` lines 113-184): resolve the
tenant by `metadata.phone_number_id`, skip the change when the field is
falsy or no tenant matches, then iterate over `value.messages`. -/
def processChange (oracle : Nat → Bool) (st : HandlerState) (change : JValue) :
    Except PyExc HandlerState :=
  match pyGet change "value" (.obj []) with
  | .error e => .error e
  | .ok value =>
    match pyGet value "metadata" (.obj []) with
    | .error e => .error e
    | .ok metadata =>
      match pyGet metadata "phone_number_id" .null with
      | .error e => .error e
      | .ok phone_id =>
        if !truthy phone_id then .ok st
        else
          match tenant_by_phone_id phone_id st.db with
          | none => .ok st
          | some tenant =>
            match pyGet value "messages" (.arr []) with
            | .error e => .error e
            | .ok msgsV =>
              match pyIter msgsV with
              | .error e => .error e
              | .ok msgs => msgs.foldlM (processMessage oracle tenant) st

/-- Body of the `entry` loop (`main.py` line 112-113). -/
def processEntry (oracle : Nat → Bool) (st : HandlerState) (entry : JValue) :
    Except PyExc HandlerState :=
  match pyGet entry "changes" (.arr []) with
  | .error e => .error e
  | .ok changesV =>
    match pyIter changesV with
    | .error e => .error e
    | .ok changes => changes.foldlM (processChange oracle) st

/-- The whole loop nest of `webhook_handler` over a parsed payload
(`main.py` lines 112-184). -/
def webhookProcess (oracle : Nat → Bool) (payload : JValue) (db : DB) :
    Except PyExc HandlerState :=
  match pyGet payload "entry" (.arr []) with
  | .error e => .error e
  | .ok entriesV =>
    match pyIter entriesV with
    | .error e => .error e
    | .ok entries => entries.foldlM (processEntry oracle) ⟨db, [], 0⟩

/-- HTTP outcome of `POST /webhook`: the fixed 200 acknowledgment of
`main.py` line 186, the 400 of line 108 for an unparseable body, or the
500 produced by the framework for an exception no handler code catches. -/
inductive HttpResult where
  | ok (status : Nat) (statusField : String) (st : HandlerState)
  | clientError (status : Nat)
  | serverError
  deriving Repr

/-- `webhook_handler` (`main.py` lines 98-186): `body` is the result of
parsing the request body (`none` when `request.json()` raises, which
yields HTTP 400); an exception escaping the loop nest becomes HTTP 500. -/
def webhook_handler (oracle : Nat → Bool) (body : Option JValue) (db : DB) : HttpResult :=
  match body with
  | none => .clientError 400
  | some payload =>
      match webhookProcess oracle payload db with
      | .ok st => .ok 200 "received" st
      | .error _ => .serverError

/-- Modelled from the spec: the tenant-filtered FAQ retrieval is absent
from the sources (the `find_relevant_faqs` in `api/ai.py` is an
acknowledged placeholder returning the empty list and lacks a tenant
parameter, while `api/routers/rag.py` imports a later version of the
module that is not in the repository).  Per spec section 4.3: restrict
candidates to the given tenant and to entries with a non-null
embedding, then rank by ascending cosine distance to the query
embedding.  The pgvector cosine-distance operator is modelled as an
opaque distance function `dist` on embedding vectors. -/
def rankedFaqs (dist : List ℚ → List ℚ → ℚ) (db : DB) (tid : String) (qv : List ℚ) :
    List FaqRow :=
  List.insertionSort
    (fun a b => dist qv (a.embedding.getD []) ≤ dist qv (b.embedding.getD []))
    (db.faqs.filter (fun f => f.tenant_id = tid ∧ f.embedding ≠ none))

/-- Modelled from the spec: the retrieval contract of spec section 4.3,
`retrieve(tenant_id, query, top_k) -> ordered list of question/answer
pairs`, closest first, truncated to `top_k`. -/
def findRelevantFaqs (dist : List ℚ → List ℚ → ℚ) (db : DB) (tid : String)
    (qv : List ℚ) (topK : Nat) : List (String × String) :=
  ((rankedFaqs dist db tid qv).take topK).map (fun f => (f.question, f.answer))

/-- Celery configuration values set in `tasks.py` lines 22-31. -/
structure CeleryConf where
  task_time_limit : Nat
  task_soft_time_limit : Nat
  task_default_retry_delay : Nat
  task_max_retries : Nat
  deriving DecidableEq, Repr

/-- The configuration of `tasks.py`: hard limit 300 s, soft limit 240 s,
retry delay 60 s, at most 3 retries. -/
def celeryConf : CeleryConf :=
  { task_time_limit := 300
    task_soft_time_limit := 240
    task_default_retry_delay := 60
    task_max_retries := 3 }

/-- Environment of one `process_ai_reply` job (`tasks.py` lines 33-45):
presence of the OpenAI key, the outcome of the chat-completion call
(`none` when it raises), the tenant routing data captured at enqueue
time, and the per-attempt outcome of the WhatsApp delivery call. -/
structure TaskEnv where
  apiKeyPresent : Bool
  aiAnswer : Option String
  tenant_id : String
  tenant_wh_token : String
  deliveryOk : Nat → Bool

/-- One execution attempt of `process_ai_reply` (`tasks.py` lines
43-112), returning the store after the attempt and whether the attempt
succeeded (an unsuccessful attempt corresponds to `self.retry` being
raised).  A missing API key raises retry before anything else; a failed
completion call is caught by the generic handler and retried; on
success the assistant message is committed before delivery, and a
delivery failure raises retry without rolling that commit back; an
empty WhatsApp token makes the task return early, after the commit. -/
def processAiReplyAttempt (env : TaskEnv) (n : Nat) (db : DB) : DB × Bool :=
  if !env.apiKeyPresent then (db, false)
  else
    match env.aiAnswer with
    | none => (db, false)
    | some ans =>
        let db' := insertAssistantMessage db env.tenant_id ans
        if env.tenant_wh_token = "" then (db', true)
        else if env.deliveryOk n then (db', true)
        else (db', false)

/-- Celery's retry loop for an acks-late task with `max_retries` bound:
the body runs once, and each raised retry re-runs it until either it
succeeds or `max_retries` re-runs have been spent, for at most
`fuel = max_retries + 1` executions.  Returns the final store, the
number of executions performed, and whether the job succeeded. -/
def celeryRetryLoop (env : TaskEnv) : Nat → Nat → DB → DB × Nat × Bool
  | 0, n, db => (db, n, false)
  | fuel + 1, n, db =>
      match processAiReplyAttempt env n db with
      | (db', true) => (db', n + 1, true)
      | (db', false) => celeryRetryLoop env fuel (n + 1) db'

/-- A full run of the `process_ai_reply` job including retries, with the
attempt bound `task_max_retries + 1` of `tasks.py` (`self.retry` uses
the configured maximum of 3 retries). -/
def celeryRun (env : TaskEnv) (db : DB) : DB × Nat × Bool :=
  celeryRetryLoop env (celeryConf.task_max_retries + 1) 0 db

/-- Output dimensionality of the embedding client of `api/ai.py`:
the sentence-transformers model `all-MiniLM-L6-v2`, whose embedding
dimension is 384 (`ai.py` line 36 records this as the model's
dimension). -/
def EMBEDDING_DIM : Nat := 384

/-- Dimensionality of the `faqs.embedding` column: `Vector(1536)` in
`models.py` line 34 and in migration `0002_add_faq_table_with_vector.py`
(migration `0003` documents the choice of 1536, OpenAI ada-002). -/
def faqEmbeddingDim : Nat := 1536

/-- The text embedded for a FAQ entry
(`routers/admin.py` line 155, `tasks.py` line 143). -/
def faqEmbedText (question answer : String) : String :=
  "Question: " ++ question ++ " Answer: " ++ answer

/-- `generate_embedding` of `api/ai.py` lines 39-50: returns `None` on
empty input, otherwise the encoder's vector for the text.  The
sentence-transformers encoder itself is the opaque parameter `enc`;
every vector it outputs has length `EMBEDDING_DIM`. -/
def generate_embedding (enc : String → List ℚ) (text_content : String) :
    Option (List ℚ) :=
  if text_content = "" then none else some (enc text_content)

/-- An INSERT into the `faqs` table: the pgvector column `vector(1536)`
rejects a vector whose length differs from the declared dimension. -/
def insertFaq (db : DB) (tid question answer : String) (emb : List ℚ) :
    Except InsertErr DB :=
  if emb.length = faqEmbeddingDim then
    .ok { db with faqs := db.faqs ++ [⟨db.faqs.length, tid, question, answer, some emb⟩] }
  else .error .otherError

/-- FAQ creation of `routers/admin.py` lines 150-163: embed
question-plus-answer, fail when no embedding is produced, otherwise
insert the row with the embedding. -/
def createFaq (enc : String → List ℚ) (db : DB) (tid question answer : String) :
    Except InsertErr DB :=
  match generate_embedding enc (faqEmbedText question answer) with
  | none => .error .otherError
  | some emb => insertFaq db tid question answer emb

/-- Extension relation between stores produced by webhook ingestion:
the later store has the same tenants and FAQ rows, its messages extend
the earlier ones, every row added is an inbound row (role `user`, with
an external WhatsApp id), and the id counter has not gone backwards. -/
def DBExt (d1 d2 : DB) : Prop :=
  d2.tenants = d1.tenants ∧ d2.faqs = d1.faqs ∧ d1.nextMsgId ≤ d2.nextMsgId ∧
  ∃ new, d2.messages = d1.messages ++ new ∧
    ∀ m ∈ new, m.role = "user" ∧ (∃ w, m.wa_msg_id = some w) ∧ d1.nextMsgId ≤ m.id

theorem DBExt.rfl (d : DB) : DBExt d d :=
  ⟨by rfl, by rfl, Nat.le_refl _, [], by simp, by simp⟩

theorem DBExt.trans {d1 d2 d3 : DB} (h12 : DBExt d1 d2) (h23 : DBExt d2 d3) :
    DBExt d1 d3 := by
  obtain ⟨ht12, hf12, hn12, n12, hm12, hp12⟩ := h12
  obtain ⟨ht23, hf23, hn23, n23, hm23, hp23⟩ := h23
  refine ⟨ht23.trans ht12, hf23.trans hf12, hn12.trans hn23, n12 ++ n23, ?_, ?_⟩
  · rw [hm23, hm12, List.append_assoc]
  · intro m hm
    rcases List.mem_append.mp hm with h | h
    · exact hp12 m h
    · obtain ⟨h1, h2, h3⟩ := hp23 m h
      exact ⟨h1, h2, hn12.trans h3⟩

/-- Invariant-propagation along a monadic fold in `Except`: if the step
function preserves `P` on success, so does the whole fold. -/
theorem foldlM_except_inv {α σ ε : Type} {P : σ → Prop} (f : σ → α → Except ε σ)
    (hf : ∀ s a s', P s → f s a = .ok s' → P s') :
    ∀ (l : List α) (s s' : σ), P s → l.foldlM f s = .ok s' → P s'
  | [], s, s', hs, hok => by
      simp only [List.foldlM_nil] at hok
      cases hok
      exact hs
  | a :: l, s, s', hs, hok => by
      simp only [List.foldlM_cons] at hok
      cases hfa : f s a with
      | error e => rw [hfa] at hok; cases hok
      | ok s1 =>
          rw [hfa] at hok
          exact foldlM_except_inv f hf l s1 s' (hf s a s1 hs hfa) hok

/-- A monadic fold in `Except` cannot fail when no step on a list
element can fail. -/
theorem foldlM_except_total {α σ ε : Type} (f : σ → α → Except ε σ) :
    ∀ (l : List α), (∀ s a, a ∈ l → ∃ s', f s a = .ok s') →
      ∀ s, ∃ s', l.foldlM f s = .ok s'
  | [], _, s => ⟨s, by simp only [List.foldlM_nil]; rfl⟩
  | a :: l, hf, s => by
      obtain ⟨s1, hs1⟩ := hf s a (by simp)
      obtain ⟨s', hs'⟩ := foldlM_except_total f l
        (fun t b hb => hf t b (List.mem_cons_of_mem a hb)) s1
      exact ⟨s', by simp only [List.foldlM_cons, hs1]; exact hs'⟩

/-- A successful insert of an inbound message appends exactly the new
row and bumps the id counter. -/
theorem insertUserMessage_ok {db : DB} {tid w : String} {txt : JValue} {o : Bool} {db' : DB}
    (h : insertUserMessage db tid w txt o = .ok db') :
    ∃ t, txt = .str t ∧ waTaken db w = false ∧
      db' = { db with
                messages := db.messages ++ [⟨db.nextMsgId, tid, some w, "user", t⟩],
                nextMsgId := db.nextMsgId + 1 } := by
  unfold insertUserMessage at h
  split at h
  · cases h
  · split at h
    · next t =>
        split at h
        · cases h
        · cases h
          exact ⟨t, rfl, by simp_all, rfl⟩
    · cases h

/-- No existing row carries the external id when the duplicate guard
comes back clean. -/
theorem waTaken_false {db : DB} {w : String} (h : waTaken db w = false) :
    ∀ m ∈ db.messages, m.wa_msg_id ≠ some w := by
  intro m hm
  simp only [waTaken, List.any_eq_false, decide_eq_true_eq] at h
  exact h m hm

/-- Inserting an inbound message preserves store well-formedness. -/
theorem insertUserMessage_WF {db : DB} {tid w : String} {txt : JValue} {o : Bool} {db' : DB}
    (hwf : WFdb db) (h : insertUserMessage db tid w txt o = .ok db') : WFdb db' := by
  obtain ⟨t, _, hfree, rfl⟩ := insertUserMessage_ok h
  obtain ⟨h1, h2, h3⟩ := hwf
  have hfree' := waTaken_false hfree
  refine ⟨?_, ?_, ?_⟩
  · rw [List.pairwise_append]
    refine ⟨h1, by simp, ?_⟩
    intro a ha b hb
    simp only [List.mem_singleton] at hb
    subst hb
    exact h2 a ha
  · intro m hm
    rcases List.mem_append.mp hm with hm | hm
    · exact Nat.lt_succ_of_lt (h2 m hm)
    · simp only [List.mem_singleton] at hm
      subst hm
      exact Nat.lt_succ_self _
  · rw [List.pairwise_append]
    refine ⟨h3, by simp, ?_⟩
    intro a ha b hb
    simp only [List.mem_singleton] at hb
    subst hb
    exact Or.inr (by simpa using hfree' a ha)

/-- Inserting an inbound message is an ingestion extension step. -/
theorem insertUserMessage_ext {db : DB} {tid w : String} {txt : JValue} {o : Bool} {db' : DB}
    (h : insertUserMessage db tid w txt o = .ok db') : DBExt db db' := by
  obtain ⟨t, _, _, rfl⟩ := insertUserMessage_ok h
  refine ⟨rfl, rfl, Nat.le_succ _, [⟨db.nextMsgId, tid, some w, "user", t⟩], rfl, ?_⟩
  intro m hm
  simp only [List.mem_singleton] at hm
  subst hm
  exact ⟨rfl, ⟨w, rfl⟩, Nat.le_refl _⟩

/-- One step of the inner messages loop preserves well-formedness and
the ingestion-extension relation to the request's initial store. -/
theorem processMessage_inv {oracle : Nat → Bool} {tenant : Tenant} {db0 : DB}
    {st st' : HandlerState} {m : JValue}
    (hP : WFdb st.db ∧ DBExt db0 st.db)
    (h : processMessage oracle tenant st m = .ok st') :
    WFdb st'.db ∧ DBExt db0 st'.db := by
  unfold processMessage at h
  split at h
  · cases h
  split at h
  · cases h
  split at h
  · cases h
  split at h
  · cases h
  split at h
  · cases h
    exact hP
  split at h
  · split at h
    · cases h
      exact hP
    · split at h
      · cases h
        exact hP
      · next db' hins =>
          cases h
          exact ⟨insertUserMessage_WF hP.1 hins, hP.2.trans (insertUserMessage_ext hins)⟩
  · cases h

/-- One step of the changes loop preserves the invariant. -/
theorem processChange_inv {oracle : Nat → Bool} {db0 : DB}
    {st st' : HandlerState} {c : JValue}
    (hP : WFdb st.db ∧ DBExt db0 st.db)
    (h : processChange oracle st c = .ok st') :
    WFdb st'.db ∧ DBExt db0 st'.db := by
  unfold processChange at h
  split at h
  · cases h
  split at h
  · cases h
  split at h
  · cases h
  split at h
  · cases h
    exact hP
  split at h
  · cases h
    exact hP
  split at h
  · cases h
  split at h
  · cases h
  exact foldlM_except_inv _ (fun s a s' hs ha => processMessage_inv hs ha) _ st st' hP h

/-- One step of the entry loop preserves the invariant. -/
theorem processEntry_inv {oracle : Nat → Bool} {db0 : DB}
    {st st' : HandlerState} {e : JValue}
    (hP : WFdb st.db ∧ DBExt db0 st.db)
    (h : processEntry oracle st e = .ok st') :
    WFdb st'.db ∧ DBExt db0 st'.db := by
  unfold processEntry at h
  split at h
  · cases h
  split at h
  · cases h
  exact foldlM_except_inv _ (fun s a s' hs ha => processChange_inv hs ha) _ st st' hP h

/-- A successful pass over a payload keeps the store well-formed and
only ever appends inbound rows to it. -/
theorem webhookProcess_inv {oracle : Nat → Bool} {p : JValue} {db : DB} {st : HandlerState}
    (hwf : WFdb db) (h : webhookProcess oracle p db = .ok st) :
    WFdb st.db ∧ DBExt db st.db := by
  unfold webhookProcess at h
  split at h
  · cases h
  split at h
  · cases h
  exact foldlM_except_inv _ (fun s a s' hs ha => processEntry_inv hs ha) _ _ st
    ⟨hwf, DBExt.rfl db⟩ h

/-- The uniqueness half of well-formedness bounds the number of rows
with any fixed external id by one. -/
theorem filter_wa_le_one {l : List MessageRow}
    (h : l.Pairwise (fun a b => a.wa_msg_id = none ∨ a.wa_msg_id ≠ b.wa_msg_id)) (w : String) :
    (l.filter (fun m => m.wa_msg_id = some w)).length ≤ 1 := by
  induction l with
  | nil => simp
  | cons a l ih =>
      rw [List.pairwise_cons] at h
      obtain ⟨ha, hl⟩ := h
      by_cases hw : a.wa_msg_id = some w
      · have hrest : l.filter (fun m => m.wa_msg_id = some w) = [] := by
          rw [List.filter_eq_nil_iff]
          intro b hb
          simp only [decide_eq_true_eq]
          intro hbw
          rcases ha b hb with h0 | h0
          · rw [hw] at h0
            cases h0
          · exact h0 (hw.trans hbw.symm)
        simp [List.filter_cons, hw, hrest]
      · simpa [List.filter_cons, hw] using ih hl

/-- Any well-formed store has at most one message per external id. -/
theorem waCount_le_one {db : DB} (h : WFdb db) (w : String) : waCount db w ≤ 1 :=
  filter_wa_le_one h.2.2 w

/-- Ingestion never deletes rows: the count per external id cannot
decrease. -/
theorem waCount_mono {d1 d2 : DB} (h : DBExt d1 d2) (w : String) :
    waCount d1 w ≤ waCount d2 w := by
  obtain ⟨-, -, -, new, hm, -⟩ := h
  unfold waCount
  rw [hm, List.filter_append, List.length_append]
  exact Nat.le_add_right _ _

/-- C1: idempotent ingestion.  Whenever the webhook handler
acknowledges a payload over a well-formed store, every external
WhatsApp message id has at most one persisted Message row; an id that
already had its row keeps exactly that one row (so re-delivering the
same message, in the same payload or a later one, adds nothing); and a
concurrent duplicate that slips past the pre-check is rejected by the
uniqueness constraint as an IntegrityError, which the handler absorbs
by rolling back and continuing. -/
theorem idempotent_ingestion (oracle : Nat → Bool) (body : Option JValue) (db : DB)
    (st : HandlerState) (hwf : WFdb db)
    (hok : webhook_handler oracle body db = .ok 200 "received" st) :
    (∀ w, waCount st.db w ≤ 1) ∧
    (∀ w, waCount db w = 1 → waCount st.db w = 1) ∧
    (∀ tid w txt o, waTaken db w = true →
       insertUserMessage db tid w txt o = .error .integrityError) := by
  have hproc : ∃ p, body = some p ∧ webhookProcess oracle p db = .ok st := by
    unfold webhook_handler at hok
    split at hok
    · cases hok
    · next p =>
        split at hok
        · next st0 hst0 =>
            cases hok
            exact ⟨p, rfl, hst0⟩
        · cases hok
  obtain ⟨p, -, hproc⟩ := hproc
  have hinv := webhookProcess_inv hwf hproc
  refine ⟨fun w => waCount_le_one hinv.1 w, fun w h1 => ?_, fun tid w txt o hw => ?_⟩
  · exact Nat.le_antisymm (waCount_le_one hinv.1 w) (h1 ▸ waCount_mono hinv.2 w)
  · simp [insertUserMessage, hw]

/-- Failure oracle of a run in which no insert raises a generic
exception. -/
def noFailOracle : Nat → Bool := fun _ => false

/-- Example tenant used by the concrete scenarios. -/
def tenant1 : Tenant := ⟨"t1", "123", "tok", "You are a helpful assistant."⟩

/-- Example store holding only `tenant1`. -/
def exampleDB : DB := ⟨[tenant1], [], [], 0⟩

/-- A well-formed inbound WhatsApp message object. -/
def inboundMsg (sender body wid : String) : JValue :=
  .obj [("from", .str sender), ("text", .obj [("body", .str body)]), ("id", .str wid)]

/-- The value object of a webhook change: metadata with the
phone-number id, and the list of messages. -/
def webhookValue (phoneId : String) (msgs : List JValue) : JValue :=
  .obj [("metadata", .obj [("phone_number_id", .str phoneId)]), ("messages", .arr msgs)]

/-- A webhook payload with one entry holding one change with the given
value object. -/
def webhookPayload (phoneId : String) (msgs : List JValue) : JValue :=
  .obj [("entry", .arr [.obj [("changes", .arr [.obj [("value", webhookValue phoneId msgs)]])]])]

/-- Extract the handler state out of a 200 response. -/
def hstOf (r : HttpResult) (d : HandlerState) : HandlerState :=
  match r with
  | .ok _ _ st => st
  | _ => d

/-- Payload delivering the same inbound message twice. -/
def c1payload : JValue :=
  webhookPayload "123" [inboundMsg "+15550001" "Hi" "wamid.1", inboundMsg "+15550001" "Hi" "wamid.1"]

/-- Handler state after processing the duplicate-delivery payload. -/
def c1st : HandlerState :=
  hstOf (webhook_handler noFailOracle (some c1payload) exampleDB) ⟨exampleDB, [], 0⟩

/-- C1 witness: the duplicated delivery of `wamid.1` leaves at most one
row with that id. -/
theorem idempotent_ingestion_witness : waCount c1st.db "wamid.1" ≤ 1 :=
  (idempotent_ingestion noFailOracle (some c1payload) exampleDB c1st
    ⟨List.Pairwise.nil, by simp [exampleDB], List.Pairwise.nil⟩ (by rfl)).1 "wamid.1"

/-- A message object of a shape the handler's field accesses cannot
blow up on: a dict whose `text` field (when present) is a dict, and
whose `id` field, when all three required fields are truthy, is a
string (a truthy non-string id makes the duplicate-guard database query
itself raise). -/
def msgWellShaped (m : JValue) : Bool :=
  match m with
  | .obj fs =>
      match (fs.lookup "text").getD (.obj []) with
      | .obj tfs =>
          (!(truthy ((fs.lookup "from").getD .null) &&
             truthy ((tfs.lookup "body").getD (.str "")) &&
             truthy ((fs.lookup "id").getD .null))) ||
          (match (fs.lookup "id").getD .null with
           | .str _ => true
           | _ => false)
      | _ => false
  | _ => false

/-- A change object the handler can walk without an uncaught
exception. -/
def changeWellShaped (c : JValue) : Bool :=
  match c with
  | .obj fs =>
      match (fs.lookup "value").getD (.obj []) with
      | .obj vfs =>
          (match (vfs.lookup "metadata").getD (.obj []) with
           | .obj _ => true
           | _ => false) &&
          (match pyIter ((vfs.lookup "messages").getD (.arr [])) with
           | .ok ms => ms.all msgWellShaped
           | .error _ => false)
      | _ => false
  | _ => false

/-- An entry object the handler can walk without an uncaught
exception. -/
def entryWellShaped (e : JValue) : Bool :=
  match e with
  | .obj fs =>
      match pyIter ((fs.lookup "changes").getD (.arr [])) with
      | .ok cs => cs.all changeWellShaped
      | .error _ => false
  | _ => false

/-- A payload the handler can walk without an uncaught exception: a
JSON object whose nested entry, changes, value, metadata, messages and
text structures have the types the handler's `.get` chains and loops
expect. -/
def payloadWellShaped (p : JValue) : Bool :=
  match p with
  | .obj fs =>
      match pyIter ((fs.lookup "entry").getD (.arr [])) with
      | .ok es => es.all entryWellShaped
      | .error _ => false
  | _ => false

/-- A well-shaped message never makes the inner loop body raise,
whatever the store, tenant and oracle say. -/
theorem processMessage_total {oracle : Nat → Bool} {tenant : Tenant} {m : JValue}
    (hws : msgWellShaped m = true) (st : HandlerState) :
    ∃ st', processMessage oracle tenant st m = .ok st' := by
  unfold msgWellShaped at hws
  split at hws
  · next fs =>
    split at hws
    · next tfs heq =>
      unfold processMessage
      simp only [pyGet, heq]
      rcases Bool.or_eq_true _ _ |>.mp hws with hc | hid
      · exact ⟨st, by simp [hc]⟩
      · cases hc : (!(truthy ((fs.lookup "from").getD .null) &&
             truthy ((tfs.lookup "body").getD (.str "")) &&
             truthy ((fs.lookup "id").getD .null)))
        case true => exact ⟨st, by simp [hc]⟩
        case false =>
          split at hid
          · next w hw =>
            cases hw2 : waTaken st.db w
            case true => exact ⟨st, by simp [hc, hw, hw2]⟩
            case false =>
              cases hins : insertUserMessage st.db tenant.id w
                  ((tfs.lookup "body").getD (.str "")) (oracle st.attempts)
              case error e =>
                exact ⟨{ st with attempts := st.attempts + 1 },
                  by simp [hc, hw, hw2, hins]⟩
              case ok db' =>
                exact ⟨{ db := db'
                         jobs := st.jobs ++
                           [⟨tenant, chatForAI tenant db', (fs.lookup "from").getD .null⟩]
                         attempts := st.attempts + 1 },
                  by simp [hc, hw, hw2, hins]⟩
          · cases hid
    · cases hws
  · cases hws

/-- A well-shaped change never makes the changes loop body raise. -/
theorem processChange_total {oracle : Nat → Bool} {c : JValue}
    (hws : changeWellShaped c = true) (st : HandlerState) :
    ∃ st', processChange oracle st c = .ok st' := by
  unfold changeWellShaped at hws
  split at hws
  · next fs =>
    split at hws
    · next vfs heq =>
      rw [Bool.and_eq_true] at hws
      obtain ⟨hmeta, hmsgs⟩ := hws
      unfold processChange
      simp only [pyGet, heq]
      split at hmeta
      · next mfs heqm =>
        simp only [heqm, pyGet]
        cases hp : (!truthy ((mfs.lookup "phone_number_id").getD .null))
        case true => exact ⟨st, by simp [hp]⟩
        case false =>
          cases ht : tenant_by_phone_id ((mfs.lookup "phone_number_id").getD .null) st.db
          case none => exact ⟨st, by simp [hp, ht]⟩
          case some tenant =>
            split at hmsgs
            · next msList heqI =>
              obtain ⟨st', hst'⟩ := foldlM_except_total (processMessage oracle tenant) msList
                (fun s a ha => processMessage_total (List.all_eq_true.mp hmsgs a ha) s) st
              exact ⟨st', by simp [hp, ht, heqI, hst']⟩
            · cases hmsgs
      · cases hmeta
    · cases hws
  · cases hws

/-- A well-shaped entry never makes the entry loop body raise. -/
theorem processEntry_total {oracle : Nat → Bool} {e : JValue}
    (hws : entryWellShaped e = true) (st : HandlerState) :
    ∃ st', processEntry oracle st e = .ok st' := by
  unfold entryWellShaped at hws
  split at hws
  · next fs =>
    split at hws
    · next cs heqI =>
      obtain ⟨st', hst'⟩ := foldlM_except_total (processChange oracle) cs
        (fun s a ha => processChange_total (List.all_eq_true.mp hws a ha) s) st
      exact ⟨st', by simp [processEntry, pyGet, heqI, hst']⟩
    · cases hws
  · cases hws

/-- On a well-shaped payload the loop nest always completes. -/
theorem webhookProcess_total {oracle : Nat → Bool} {p : JValue}
    (hws : payloadWellShaped p = true) (db : DB) :
    ∃ st, webhookProcess oracle p db = .ok st := by
  unfold payloadWellShaped at hws
  split at hws
  · next fs =>
    split at hws
    · next es heqI =>
      obtain ⟨st, hst⟩ := foldlM_except_total (processEntry oracle) es
        (fun s a ha => processEntry_total (List.all_eq_true.mp hws a ha) s) ⟨db, [], 0⟩
      exact ⟨st, by simp [webhookProcess, pyGet, heqI, hst]⟩
    · cases hws
  · cases hws

/-- C2 counterexample: the body `5` parses as JSON, yet the handler
calls `.get` on it, raising an uncaught AttributeError, so the request
fails with a server error instead of the claimed 200 acknowledgment. -/
theorem webhook_ack_counterexample :
    webhook_handler noFailOracle (some (.num 5)) exampleDB = .serverError := rfl

/-- C2 (amended): an unparseable body yields HTTP 400; every body that
parses as a well-shaped JSON payload (objects and arrays where the
handler's field accesses and loops expect them, and a string external
id on any fully-truthy message) yields HTTP 200 with status field
"received", regardless of unknown tenants, skipped messages, or
persist failures; and every body that parses as JSON but is not a JSON
object makes the handler's first field access raise an uncaught
AttributeError, yielding HTTP 500 rather than the claimed 200. -/
theorem webhook_ack_amended (oracle : Nat → Bool) (body : Option JValue) (db : DB) :
    (body = none → webhook_handler oracle body db = .clientError 400) ∧
    (∀ p, body = some p → payloadWellShaped p = true →
      ∃ st, webhook_handler oracle body db = .ok 200 "received" st) ∧
    (∀ p, body = some p → (∀ fs, p ≠ .obj fs) →
      webhook_handler oracle body db = .serverError) := by
  refine ⟨?_, ?_, ?_⟩
  · intro h
    subst h
    rfl
  · intro p hp hws
    subst hp
    obtain ⟨st, hst⟩ := @webhookProcess_total oracle p hws db
    exact ⟨st, by simp [webhook_handler, hst]⟩
  · intro p hp hnobj
    subst hp
    cases p with
    | obj fs => exact absurd rfl (hnobj fs)
    | null => rfl
    | jbool b => rfl
    | num n => rfl
    | str s => rfl
    | arr xs => rfl

/-- C4: tenant isolation.  Retrieval for tenant A only ever returns
FAQ rows owned by A — whatever the distance function says about other
tenants' rows — and history assembly for A only returns Message rows
owned by A; in particular no row owned by any other tenant B appears. -/
theorem tenant_isolation (dist : List ℚ → List ℚ → ℚ) (db : DB) (A : String)
    (qv : List ℚ) (topK : Nat) :
    (∀ f ∈ (rankedFaqs dist db A qv).take topK, f.tenant_id = A) ∧
    (∀ m ∈ historyMessages db A, m.tenant_id = A) ∧
    (∀ B, B ≠ A → ∀ f ∈ (rankedFaqs dist db A qv).take topK, f.tenant_id ≠ B) ∧
    (∀ B, B ≠ A → ∀ m ∈ historyMessages db A, m.tenant_id ≠ B) := by
  have hf : ∀ f ∈ (rankedFaqs dist db A qv).take topK, f.tenant_id = A := by
    intro f hfm
    have h1 : f ∈ rankedFaqs dist db A qv := List.mem_of_mem_take hfm
    unfold rankedFaqs at h1
    rw [List.mem_insertionSort] at h1
    have h2 := (List.mem_filter.mp h1).2
    simp only [decide_eq_true_eq] at h2
    exact h2.1
  have hm : ∀ m ∈ historyMessages db A, m.tenant_id = A := by
    intro m hmm
    unfold historyMessages at hmm
    rw [List.mem_reverse] at hmm
    have h1 := List.mem_of_mem_take hmm
    unfold orderByIdDesc at h1
    rw [List.mem_insertionSort] at h1
    have h2 := (List.mem_filter.mp h1).2
    simpa using h2
  refine ⟨hf, hm, ?_, ?_⟩
  · intro B hB f hfm
    rw [hf f hfm]
    exact Ne.symm hB
  · intro B hB m hmm
    rw [hm m hmm]
    exact Ne.symm hB

instance (dist : List ℚ → List ℚ → ℚ) (qv : List ℚ) :
    IsTotal FaqRow
      (fun a b => dist qv (a.embedding.getD []) ≤ dist qv (b.embedding.getD [])) :=
  ⟨fun _ _ => le_total _ _⟩

instance (dist : List ℚ → List ℚ → ℚ) (qv : List ℚ) :
    IsTrans FaqRow
      (fun a b => dist qv (a.embedding.getD []) ≤ dist qv (b.embedding.getD [])) :=
  ⟨fun _ _ _ h1 h2 => le_trans h1 h2⟩

instance (dist : List ℚ → List ℚ → ℚ) (qv : List ℚ) :
    IsAntisymm FaqRow
      (fun a b => dist qv (a.embedding.getD []) < dist qv (b.embedding.getD [])) :=
  ⟨fun _ _ h1 h2 => absurd (lt_trans h1 h2) (lt_irrefl _)⟩

/-- C5: retrieval ranking.  When the tenant's embedded FAQ rows are
exactly three entries at strictly increasing distances from the query,
retrieval with top_k 2 returns exactly the two closest entries as
question/answer pairs, closest first. -/
theorem retrieval_ranking (dist : List ℚ → List ℚ → ℚ) (db : DB) (tid : String)
    (qv : List ℚ) (f1 f2 f3 : FaqRow)
    (hl : List.Perm (db.faqs.filter (fun f => f.tenant_id = tid ∧ f.embedding ≠ none))
      [f1, f2, f3])
    (h12 : dist qv (f1.embedding.getD []) < dist qv (f2.embedding.getD []))
    (h23 : dist qv (f2.embedding.getD []) < dist qv (f3.embedding.getD [])) :
    findRelevantFaqs dist db tid qv 2 =
      [(f1.question, f1.answer), (f2.question, f2.answer)] := by
  have h13 := lt_trans h12 h23
  have hsorted : List.Sorted
      (fun a b : FaqRow => dist qv (a.embedding.getD []) ≤ dist qv (b.embedding.getD []))
      (rankedFaqs dist db tid qv) := List.sorted_insertionSort _ _
  have hperm : List.Perm (rankedFaqs dist db tid qv) [f1, f2, f3] :=
    (List.perm_insertionSort _ _).trans hl
  have htarget : List.Pairwise
      (fun a b : FaqRow => dist qv (a.embedding.getD []) < dist qv (b.embedding.getD []))
      [f1, f2, f3] := by
    refine List.Pairwise.cons ?_ (List.Pairwise.cons ?_ (List.pairwise_singleton _ _))
    · intro b hb
      rcases List.mem_cons.mp hb with rfl | hb
      · exact h12
      · rcases List.mem_singleton.mp hb with rfl
        exact h13
    · intro b hb
      rcases List.mem_singleton.mp hb with rfl
      exact h23
  have hne : List.Pairwise
      (fun a b : FaqRow => dist qv (a.embedding.getD []) ≠ dist qv (b.embedding.getD []))
      [f1, f2, f3] := htarget.imp (fun hab => ne_of_lt hab)
  have hne' : List.Pairwise
      (fun a b : FaqRow => dist qv (a.embedding.getD []) ≠ dist qv (b.embedding.getD []))
      (rankedFaqs dist db tid qv) :=
    (List.Perm.pairwise_iff (fun hab => Ne.symm hab) hperm).mpr hne
  have hstrict : List.Sorted
      (fun a b : FaqRow => dist qv (a.embedding.getD []) < dist qv (b.embedding.getD []))
      (rankedFaqs dist db tid qv) :=
    (hsorted.and hne').imp (fun hab => lt_of_le_of_ne hab.1 hab.2)
  have hEq : rankedFaqs dist db tid qv = [f1, f2, f3] :=
    List.eq_of_perm_of_sorted hperm hstrict htarget
  unfold findRelevantFaqs
  rw [hEq]
  rfl

/-- Distance function reading off the first coordinate of the stored
embedding, for the concrete scenarios. -/
def distHead : List ℚ → List ℚ → ℚ := fun _ v => v.headD 0

def faqA1 : FaqRow := ⟨1, "A", "q1", "a1", some [1]⟩

def faqA2 : FaqRow := ⟨2, "A", "q2", "a2", some [2]⟩

def faqA3 : FaqRow := ⟨3, "A", "q3", "a3", some [3]⟩

/-- An FAQ row of another tenant lying closer to the query than any of
tenant A's rows. -/
def faqB : FaqRow := ⟨4, "B", "qb", "ab", some [0]⟩

/-- Store with three embedded FAQ rows for tenant A, stored out of
order, and one closer row owned by tenant B. -/
def c5db : DB := ⟨[], [], [faqB, faqA3, faqA1, faqA2], 0⟩

/-- C4 witness: the top-2 retrieval for tenant A on the store that has
a closer row of tenant B only contains rows owned by A. -/
theorem tenant_isolation_witness : faqA1.tenant_id = "A" :=
  (tenant_isolation distHead c5db "A" [0] 2).1 faqA1 (by decide)

/-- C5 witness: on the concrete store the two closest entries of
tenant A come back in ascending-distance order. -/
theorem retrieval_ranking_witness :
    findRelevantFaqs distHead c5db "A" [0] 2 = [("q1", "a1"), ("q2", "a2")] :=
  retrieval_ranking distHead c5db "A" [0] faqA1 faqA2 faqA3 (by decide) (by decide) (by decide)

instance : IsTotal MessageRow (fun a b => b.id ≤ a.id) :=
  ⟨fun a b => Nat.le_total b.id a.id⟩

instance : IsTrans MessageRow (fun a b => b.id ≤ a.id) :=
  ⟨fun _ _ _ h1 h2 => Nat.le_trans h2 h1⟩

instance : IsAntisymm MessageRow (fun a b => b.id < a.id) :=
  ⟨fun _ _ h1 h2 => absurd (Nat.lt_trans h1 h2) (Nat.lt_irrefl _)⟩

/-- Sorting a list whose ids already ascend by descending id is exactly
reversal: the `ORDER BY id DESC` query returns the table rows newest
first. -/
theorem orderByIdDesc_of_ascending {l : List MessageRow}
    (h : l.Pairwise (fun a b => a.id < b.id)) : orderByIdDesc l = l.reverse := by
  have hs : List.Sorted (fun a b : MessageRow => b.id ≤ a.id) (orderByIdDesc l) :=
    List.sorted_insertionSort _ l
  have hp : List.Perm (orderByIdDesc l) l := List.perm_insertionSort _ l
  have hne : l.Pairwise (fun a b : MessageRow => a.id ≠ b.id) :=
    h.imp (fun hab => Nat.ne_of_lt hab)
  have hne' : (orderByIdDesc l).Pairwise (fun a b : MessageRow => a.id ≠ b.id) :=
    (List.Perm.pairwise_iff (fun hab => Ne.symm hab) hp).mpr hne
  have hstrict : List.Sorted (fun a b : MessageRow => b.id < a.id) (orderByIdDesc l) :=
    (hs.and hne').imp (fun hab => Nat.lt_of_le_of_ne hab.1 (fun e => hab.2 e.symm))
  have hrev : List.Sorted (fun a b : MessageRow => b.id < a.id) l.reverse :=
    List.pairwise_reverse.mpr (h.imp (fun hab => hab))
  exact List.eq_of_perm_of_sorted (hp.trans l.reverse_perm.symm) hstrict hrev

/-- The tenant's rows stay ascending, being a filter of an ascending
table. -/
theorem tenantMessages_ascending {db : DB} {tid : String} (h : WFdb db) :
    (tenantMessages db tid).Pairwise (fun a b => a.id < b.id) :=
  List.Pairwise.sublist (List.filter_sublist _) h.1

/-- The history query returns exactly the last at-most-10 rows of the
tenant, in table (chronological) order. -/
theorem historyMessages_eq {db : DB} {tid : String} (h : WFdb db) :
    historyMessages db tid = ((tenantMessages db tid).reverse.take 10).reverse := by
  unfold historyMessages
  rw [orderByIdDesc_of_ascending (tenantMessages_ascending h)]

/-- The assembled history is in strictly increasing id order. -/
theorem historyMessages_sorted {db : DB} {tid : String} (h : WFdb db) :
    (historyMessages db tid).Pairwise (fun a b => a.id < b.id) := by
  rw [historyMessages_eq h]
  refine List.pairwise_reverse.mpr ?_
  refine List.Pairwise.sublist (List.take_sublist _ _) ?_
  refine List.pairwise_reverse.mpr ?_
  exact (tenantMessages_ascending h).imp (fun hab => hab)

/-- C3: chat-context assembly.  Over a well-formed store, the context
built for the reply task has the tenant's system prompt as element
zero, followed by the projection of the history rows; the history is
the take-10 of the descending-id sort, reversed, which equals the
tenant's most recent at-most-10 rows in strictly increasing id
(chronological) order. -/
theorem history_assembly (db : DB) (t : Tenant) (h : WFdb db) :
    chatForAI t db = ⟨"system", t.system_prompt⟩ ::
        (historyMessages db t.id).map (fun m => ⟨m.role, m.text⟩) ∧
    (chatForAI t db).head? = some ⟨"system", t.system_prompt⟩ ∧
    historyMessages db t.id = ((orderByIdDesc (tenantMessages db t.id)).take 10).reverse ∧
    (historyMessages db t.id).Pairwise (fun a b => a.id < b.id) ∧
    (historyMessages db t.id).length ≤ 10 ∧
    historyMessages db t.id = ((tenantMessages db t.id).reverse.take 10).reverse := by
  refine ⟨rfl, rfl, rfl, historyMessages_sorted h, ?_, historyMessages_eq h⟩
  unfold historyMessages
  rw [List.length_reverse]
  exact List.length_take_le 10 _

/-- Store with one prior exchange, for the concrete scenarios. -/
def c3db : DB :=
  ⟨[tenant1], [⟨0, "t1", some "w0", "user", "Hi"⟩, ⟨1, "t1", none, "assistant", "Hello"⟩], [], 2⟩

/-- Well-formedness of the two-row example store. -/
theorem c3db_WF : WFdb c3db := by
  refine ⟨?_, ?_, ?_⟩ <;> simp [c3db, List.pairwise_cons]

/-- C3 witness: on the concrete store the context starts with the
system prompt. -/
theorem history_assembly_witness :
    (chatForAI tenant1 c3db).head? = some ⟨"system", "You are a helpful assistant."⟩ :=
  (history_assembly c3db tenant1 c3db_WF).2.1

/-- C2 witness: a well-shaped payload for an unregistered phone id is
still acknowledged with 200 received. -/
theorem webhook_ack_amended_witness :
    ∃ st, webhook_handler noFailOracle
      (some (webhookPayload "999" [inboundMsg "s" "b" "w1"])) exampleDB =
      .ok 200 "received" st :=
  (webhook_ack_amended noFailOracle
      (some (webhookPayload "999" [inboundMsg "s" "b" "w1"])) exampleDB).2.1
    (webhookPayload "999" [inboundMsg "s" "b" "w1"]) rfl (by rfl)

/-- A failing attempt makes the retry loop recurse on the store left
behind by the attempt. -/
theorem celeryRetryLoop_fail_step (env : TaskEnv) (fuel n : Nat) (db db' : DB)
    (h : processAiReplyAttempt env n db = (db', false)) :
    celeryRetryLoop env (fuel + 1) n db = celeryRetryLoop env fuel (n + 1) db' := by
  conv_lhs => unfold celeryRetryLoop
  rw [h]

/-- A successful attempt stops the retry loop. -/
theorem celeryRetryLoop_succ_step (env : TaskEnv) (fuel n : Nat) (db db' : DB)
    (h : processAiReplyAttempt env n db = (db', true)) :
    celeryRetryLoop env (fuel + 1) n db = (db', n + 1, true) := by
  unfold celeryRetryLoop
  rw [h]

/-- The retry loop never performs more executions than its fuel
allows. -/
theorem celeryRetryLoop_le (env : TaskEnv) :
    ∀ (fuel n : Nat) (db : DB), (celeryRetryLoop env fuel n db).2.1 ≤ n + fuel
  | 0, n, db => Nat.le_refl n
  | fuel + 1, n, db => by
      cases h : processAiReplyAttempt env n db with
      | mk db' ok =>
          cases ok
          · rw [celeryRetryLoop_fail_step env fuel n db db' h]
            have := celeryRetryLoop_le env fuel (n + 1) db'
            omega
          · rw [celeryRetryLoop_succ_step env fuel n db db' h]
            show n + 1 ≤ n + (fuel + 1)
            omega

/-- When every execution attempt fails, the retry loop burns all of
its fuel and the job ends unsuccessfully. -/
theorem celeryRetryLoop_allFail (env : TaskEnv)
    (hfail : ∀ n db, (processAiReplyAttempt env n db).2 = false) :
    ∀ (fuel n : Nat) (db : DB),
      (celeryRetryLoop env fuel n db).2.1 = n + fuel ∧
      (celeryRetryLoop env fuel n db).2.2 = false
  | 0, n, db => ⟨rfl, rfl⟩
  | fuel + 1, n, db => by
      cases h : processAiReplyAttempt env n db with
      | mk db' ok =>
          have hko := hfail n db
          rw [h] at hko
          simp only at hko
          subst hko
          rw [celeryRetryLoop_fail_step env fuel n db db' h]
          obtain ⟨ha, hb⟩ := celeryRetryLoop_allFail env hfail fuel (n + 1) db'
          exact ⟨by omega, hb⟩

/-- Under a provider that always fails (the completion call raising, or
the WhatsApp delivery returning non-2xx with a non-empty token), every
execution attempt of the task fails. -/
theorem attempt_fails (env : TaskEnv)
    (hfail : env.aiAnswer = none ∨
      (env.tenant_wh_token ≠ "" ∧ ∀ n, env.deliveryOk n = false)) :
    ∀ (n : Nat) (db : DB), (processAiReplyAttempt env n db).2 = false := by
  intro n db
  unfold processAiReplyAttempt
  rcases hfail with h | ⟨hwt, hd⟩
  · rw [h]
    cases env.apiKeyPresent <;> simp
  · cases hak : env.apiKeyPresent
    · simp
    · cases ha : env.aiAnswer
      · simp
      · simp [if_neg hwt, hd n]

/-- C6: retry bound.  A Reply Job whose provider call (chat completion
or WhatsApp delivery) fails on every attempt is executed exactly
`task_max_retries + 1 = 4` times and then abandoned unsuccessfully; no
run of the job ever exceeds that attempt bound; and each attempt runs
under the configured hard time limit of 300 seconds and soft time
limit of 240 seconds. -/
theorem retry_bound (env : TaskEnv) (db : DB)
    (hfail : env.aiAnswer = none ∨
      (env.tenant_wh_token ≠ "" ∧ ∀ n, env.deliveryOk n = false)) :
    (celeryRun env db).2.1 = celeryConf.task_max_retries + 1 ∧
    (celeryRun env db).2.2 = false ∧
    (∀ (env' : TaskEnv) (db' : DB),
      (celeryRun env' db').2.1 ≤ celeryConf.task_max_retries + 1) ∧
    celeryConf.task_max_retries = 3 ∧
    celeryConf.task_time_limit = 300 ∧
    celeryConf.task_soft_time_limit = 240 := by
  have h1 := celeryRetryLoop_allFail env (attempt_fails env hfail)
    (celeryConf.task_max_retries + 1) 0 db
  refine ⟨by simpa [celeryRun] using h1.1, by simpa [celeryRun] using h1.2, ?_, rfl, rfl, rfl⟩
  intro env' db'
  simpa [celeryRun] using celeryRetryLoop_le env' (celeryConf.task_max_retries + 1) 0 db'

/-- Task environment whose WhatsApp delivery fails on every attempt. -/
def c6env : TaskEnv := ⟨true, some "hi", "t1", "tok", fun _ => false⟩

/-- C6 witness: with delivery always failing, the job is executed
exactly four times. -/
theorem retry_bound_witness :
    (celeryRun c6env exampleDB).2.1 = celeryConf.task_max_retries + 1 :=
  (retry_bound c6env exampleDB (Or.inr ⟨by decide, fun _ => rfl⟩)).1

/-- When every attempt commits one assistant row and then fails, a run
of the loop with a given fuel appends exactly fuel assistant rows. -/
theorem celeryRetryLoop_insertChain (env : TaskEnv) (ans : String)
    (hstep : ∀ (n : Nat) (d : DB), processAiReplyAttempt env n d =
      (insertAssistantMessage d env.tenant_id ans, false)) :
    ∀ (fuel n : Nat) (db : DB),
      ∃ new, (celeryRetryLoop env fuel n db).1.messages = db.messages ++ new ∧
        new.length = fuel ∧
        ∀ m ∈ new, m.role = "assistant" ∧ m.wa_msg_id = none ∧ m.text = ans
  | 0, n, db => ⟨[], by simp [celeryRetryLoop], rfl, by simp⟩
  | fuel + 1, n, db => by
      rw [celeryRetryLoop_fail_step env fuel n db _ (hstep n db)]
      obtain ⟨new, hmsg, hlen, hall⟩ := celeryRetryLoop_insertChain env ans hstep fuel
        (n + 1) (insertAssistantMessage db env.tenant_id ans)
      refine ⟨⟨db.nextMsgId, env.tenant_id, none, "assistant", ans⟩ :: new, ?_,
        by simp [hlen], ?_⟩
      · rw [hmsg]
        simp [insertAssistantMessage]
      · intro m hm
        rcases List.mem_cons.mp hm with rfl | hm
        · exact ⟨rfl, rfl, rfl⟩
        · exact hall m hm

/-- C10: the worker commits a fresh assistant Message before attempting
delivery on each execution attempt and does not roll it back when
delivery raises; hence a job whose delivery fails on every attempt
inserts one assistant row per attempt — four rows in total, not at most
one — and still ends unsuccessfully. -/
theorem assistant_row_per_attempt (env : TaskEnv) (db : DB) (ans : String)
    (hak : env.apiKeyPresent = true) (hai : env.aiAnswer = some ans)
    (hwt : env.tenant_wh_token ≠ "") (hd : ∀ n, env.deliveryOk n = false) :
    (∃ new, (celeryRun env db).1.messages = db.messages ++ new ∧
       new.length = celeryConf.task_max_retries + 1 ∧
       ∀ m ∈ new, m.role = "assistant" ∧ m.wa_msg_id = none ∧ m.text = ans) ∧
    (celeryRun env db).2.2 = false := by
  have hstep : ∀ (n : Nat) (d : DB), processAiReplyAttempt env n d =
      (insertAssistantMessage d env.tenant_id ans, false) := by
    intro n d
    unfold processAiReplyAttempt
    rw [hak, hai]
    simp [if_neg hwt, hd n]
  constructor
  · exact celeryRetryLoop_insertChain env ans hstep (celeryConf.task_max_retries + 1) 0 db
  · exact (celeryRetryLoop_allFail env (fun n d => by rw [hstep n d])
      (celeryConf.task_max_retries + 1) 0 db).2

/-- Task environment for the concrete failing-delivery run. -/
def c10env : TaskEnv := ⟨true, some "hello", "t1", "tok", fun _ => false⟩

/-- C10 witness: the failed job left four assistant rows behind. -/
theorem assistant_row_per_attempt_witness :
    ∃ new, (celeryRun c10env exampleDB).1.messages = exampleDB.messages ++ new ∧
      new.length = celeryConf.task_max_retries + 1 ∧
      ∀ m ∈ new, m.role = "assistant" ∧ m.wa_msg_id = none ∧ m.text = "hello" :=
  (assistant_row_per_attempt c10env exampleDB "hello" rfl rfl (by decide) (fun _ => rfl)).1

/-- The text embedded for an FAQ entry is never empty, so the embedding
client always produces a vector for it. -/
theorem faqEmbedText_ne_empty (q a : String) : faqEmbedText q a ≠ "" := by
  unfold faqEmbedText
  intro h
  have h0 := congrArg String.length h
  simp only [String.length_append] at h0
  have hQ : "Question: ".length = 10 := rfl
  have hE : String.length "" = 0 := rfl
  rw [hQ, hE] at h0
  omega

/-- C8 (code bug): the schema's vector column is declared with
dimensionality 1536 (OpenAI ada-002), but the embedding client in use
is all-MiniLM-L6-v2 with output dimensionality 384, so the two never
agree and every FAQ creation fails when the generated embedding is
inserted into the column. -/
theorem embedding_dim_mismatch (enc : String → List ℚ)
    (henc : ∀ s, (enc s).length = EMBEDDING_DIM) (db : DB) (tid q a : String) :
    EMBEDDING_DIM = 384 ∧ faqEmbeddingDim = 1536 ∧
    EMBEDDING_DIM ≠ faqEmbeddingDim ∧
    createFaq enc db tid q a = .error .otherError := by
  refine ⟨rfl, rfl, by decide, ?_⟩
  have hlen : (enc (faqEmbedText q a)).length ≠ faqEmbeddingDim := by
    rw [henc]
    decide
  simp [createFaq, generate_embedding, insertFaq, faqEmbedText_ne_empty q a, hlen]

/-- Embedding client returning a constant 384-dimensional vector. -/
def encFixed : String → List ℚ := fun _ => List.replicate 384 0

/-- C8 witness: creating any FAQ with the 384-dimensional client fails
against the 1536-dimensional column. -/
theorem embedding_dim_mismatch_witness :
    createFaq encFixed exampleDB "t1" "Q" "A" = .error .otherError :=
  (embedding_dim_mismatch encFixed
    (fun s => by
      show (List.replicate 384 (0 : ℚ)).length = EMBEDDING_DIM
      rw [List.length_replicate]
      rfl) exampleDB "t1" "Q" "A").2.2.2

/-- Inserting an assistant reply (which carries no external id)
preserves store well-formedness: the NULL value never conflicts with
the UNIQUE constraint. -/
theorem insertAssistantMessage_WF {db : DB} (hwf : WFdb db) (tid txt : String) :
    WFdb (insertAssistantMessage db tid txt) := by
  obtain ⟨h1, h2, h3⟩ := hwf
  unfold insertAssistantMessage WFdb
  refine ⟨?_, ?_, ?_⟩
  · rw [List.pairwise_append]
    refine ⟨h1, by simp, ?_⟩
    intro x hx b hb
    simp only [List.mem_singleton] at hb
    subst hb
    exact h2 x hx
  · intro m hm
    rcases List.mem_append.mp hm with hm | hm
    · exact Nat.lt_succ_of_lt (h2 m hm)
    · simp only [List.mem_singleton] at hm
      subst hm
      exact Nat.lt_succ_self _
  · rw [List.pairwise_append]
    refine ⟨h3, by simp, ?_⟩
    intro x hx b hb
    simp only [List.mem_singleton] at hb
    subst hb
    rcases h : x.wa_msg_id with _ | w
    · exact Or.inl rfl
    · exact Or.inr (by simp)

/-- C9: the external WhatsApp id is optional and present for inbound
rows only.  The worker's assistant insert always succeeds, appending a
row with no external id and leaving every per-id row count unchanged
and the store well-formed; and every row the webhook ingestion adds is
an inbound one — role user with an external id present. -/
theorem wa_msg_id_optional (db : DB) (hwf : WFdb db) (tid txt : String)
    (oracle : Nat → Bool) (p : JValue) (st : HandlerState)
    (hok : webhookProcess oracle p db = .ok st) :
    (insertAssistantMessage db tid txt).messages
        = db.messages ++ [⟨db.nextMsgId, tid, none, "assistant", txt⟩] ∧
    WFdb (insertAssistantMessage db tid txt) ∧
    (∀ w, waCount (insertAssistantMessage db tid txt) w = waCount db w) ∧
    (∃ new, st.db.messages = db.messages ++ new ∧
       ∀ m ∈ new, m.role = "user" ∧ ∃ w, m.wa_msg_id = some w) ∧
    WFdb st.db := by
  have hinv := webhookProcess_inv hwf hok
  obtain ⟨-, -, -, new, hmsg, hprop⟩ := hinv.2
  refine ⟨rfl, insertAssistantMessage_WF hwf tid txt, ?_, ⟨new, hmsg, ?_⟩, hinv.1⟩
  · intro w
    unfold waCount insertAssistantMessage
    simp
  · intro m hm
    obtain ⟨hr, hw, -⟩ := hprop m hm
    exact ⟨hr, hw⟩

/-- C9 witness: the assistant insert on the concrete store appends the
NULL-id assistant row. -/
theorem wa_msg_id_optional_witness :
    (insertAssistantMessage exampleDB "t1" "yo").messages
      = exampleDB.messages ++ [⟨0, "t1", none, "assistant", "yo"⟩] :=
  (wa_msg_id_optional exampleDB ⟨List.Pairwise.nil, by simp [exampleDB], List.Pairwise.nil⟩
    "t1" "yo" noFailOracle c1payload c1st (by rfl)).1

/-- A malformed inbound message: the `text` object is absent, so the
required body field is empty and the message is skipped with a warning
(`main.py` lines 132-134). -/
def malformedMsg (sender wid : String) : JValue :=
  .obj [("from", .str sender), ("id", .str wid)]

/-- Bind of a successful `Except` computation. -/
theorem except_ok_bind {α β ε : Type} (a : α) (f : α → Except ε β) :
    (Except.ok a >>= f : Except ε β) = f a := rfl

/-- A malformed message is skipped: the state is unchanged. -/
theorem processMessage_malformed (oracle : Nat → Bool) (t : Tenant) (st : HandlerState)
    (s w : String) :
    processMessage oracle t st (malformedMsg s w) = .ok st := by
  simp [processMessage, malformedMsg, pyGet, truthy, List.lookup]

/-- A fresh well-formed message whose insert succeeds appends the row
and enqueues one reply job built over the post-insert store. -/
theorem processMessage_good (oracle : Nat → Bool) (t : Tenant) (st : HandlerState)
    (s b w : String) (db' : DB)
    (hs : s ≠ "") (hb : b ≠ "") (hw : w ≠ "")
    (hfree : waTaken st.db w = false)
    (hins : insertUserMessage st.db t.id w (.str b) (oracle st.attempts) = .ok db') :
    processMessage oracle t st (inboundMsg s b w) =
      .ok ⟨db', st.jobs ++ [⟨t, chatForAI t db', .str s⟩], st.attempts + 1⟩ := by
  simp [processMessage, inboundMsg, pyGet, truthy, List.lookup, hs, hb, hw, hfree, hins]

/-- A fresh well-formed message whose insert raises is rolled back and
skipped: the store and jobs are unchanged, only the attempt counter
moves. -/
theorem processMessage_insertFail (oracle : Nat → Bool) (t : Tenant) (st : HandlerState)
    (s b w : String) (e : InsertErr)
    (hs : s ≠ "") (hb : b ≠ "") (hw : w ≠ "")
    (hfree : waTaken st.db w = false)
    (hins : insertUserMessage st.db t.id w (.str b) (oracle st.attempts) = .error e) :
    processMessage oracle t st (inboundMsg s b w) =
      .ok { st with attempts := st.attempts + 1 } := by
  simp [processMessage, inboundMsg, pyGet, truthy, List.lookup, hs, hb, hw, hfree, hins]

/-- Walking a single-entry single-change payload addressed to a
registered tenant reduces to the fold over its messages. -/
theorem webhookProcess_payload (oracle : Nat → Bool) (db : DB) (t : Tenant)
    (msgs : List JValue) (hpn : t.phone_id ≠ "")
    (ht : tenant_by_phone_id (.str t.phone_id) db = some t) :
    webhookProcess oracle (webhookPayload t.phone_id msgs) db =
      msgs.foldlM (processMessage oracle t) ⟨db, [], 0⟩ := by
  simp [webhookProcess, webhookPayload, webhookValue, processEntry, processChange,
        pyGet, pyIter, truthy, List.lookup, hpn, ht]

/-- C7: partial-batch isolation.  A payload pairing one well-formed
message with a malformed one persists exactly the one good row, still
enqueues its reply job, and is acknowledged with 200; and when the
second message is well-formed but its insert raises, the handler rolls
the pending write back and continues, with the same outcome: exactly
one persisted row, one job, HTTP 200. -/
theorem partial_batch (db : DB) (t : Tenant)
    (hpn : t.phone_id ≠ "")
    (ht : tenant_by_phone_id (.str t.phone_id) db = some t)
    (s1 b1 w1 s2 b2 w2 : String)
    (hs1 : s1 ≠ "") (hb1 : b1 ≠ "") (hw1 : w1 ≠ "")
    (hs2 : s2 ≠ "") (hb2 : b2 ≠ "") (hw2 : w2 ≠ "")
    (hw12 : w1 ≠ w2)
    (hf1 : waTaken db w1 = false) (hf2 : waTaken db w2 = false) :
    (∃ st, webhook_handler noFailOracle
        (some (webhookPayload t.phone_id [inboundMsg s1 b1 w1, malformedMsg s2 w2])) db =
        .ok 200 "received" st ∧
      st.db.messages = db.messages ++ [⟨db.nextMsgId, t.id, some w1, "user", b1⟩] ∧
      st.jobs.length = 1) ∧
    (∃ st, webhook_handler (fun n => n == 1)
        (some (webhookPayload t.phone_id [inboundMsg s1 b1 w1, inboundMsg s2 b2 w2])) db =
        .ok 200 "received" st ∧
      st.db.messages = db.messages ++ [⟨db.nextMsgId, t.id, some w1, "user", b1⟩] ∧
      st.jobs.length = 1) := by
  have hins1 : insertUserMessage db t.id w1 (.str b1) false = .ok
      { db with messages := db.messages ++ [⟨db.nextMsgId, t.id, some w1, "user", b1⟩],
                nextMsgId := db.nextMsgId + 1 } := by
    simp [insertUserMessage, hf1]
  have hfree2 : waTaken
      { db with messages := db.messages ++ [⟨db.nextMsgId, t.id, some w1, "user", b1⟩],
                nextMsgId := db.nextMsgId + 1 } w2 = false := by
    have hf2' : db.messages.any (fun m => m.wa_msg_id = some w2) = false := hf2
    simp [waTaken, hf2', hw12]
  have hins2 : insertUserMessage
      { db with messages := db.messages ++ [⟨db.nextMsgId, t.id, some w1, "user", b1⟩],
                nextMsgId := db.nextMsgId + 1 } t.id w2 (.str b2) true =
      .error .otherError := by
    simp [insertUserMessage, hfree2]
  constructor
  · refine ⟨⟨{ db with
        messages := db.messages ++ [⟨db.nextMsgId, t.id, some w1, "user", b1⟩],
        nextMsgId := db.nextMsgId + 1 },
      [⟨t, chatForAI t { db with
        messages := db.messages ++ [⟨db.nextMsgId, t.id, some w1, "user", b1⟩],
        nextMsgId := db.nextMsgId + 1 }, .str s1⟩], 1⟩, ?_, rfl, rfl⟩
    have hproc : webhookProcess noFailOracle
        (webhookPayload t.phone_id [inboundMsg s1 b1 w1, malformedMsg s2 w2]) db =
        .ok ⟨{ db with
          messages := db.messages ++ [⟨db.nextMsgId, t.id, some w1, "user", b1⟩],
          nextMsgId := db.nextMsgId + 1 },
        [⟨t, chatForAI t { db with
          messages := db.messages ++ [⟨db.nextMsgId, t.id, some w1, "user", b1⟩],
          nextMsgId := db.nextMsgId + 1 }, .str s1⟩], 1⟩ := by
      rw [webhookProcess_payload noFailOracle db t _ hpn ht]
      simp only [List.foldlM_cons, List.foldlM_nil, except_ok_bind,
        List.nil_append, Nat.zero_add,
        processMessage_good noFailOracle t ⟨db, [], 0⟩ s1 b1 w1 _ hs1 hb1 hw1 hf1 hins1,
        processMessage_malformed noFailOracle t]
      rfl
    simp [webhook_handler, hproc]
  · refine ⟨⟨{ db with
        messages := db.messages ++ [⟨db.nextMsgId, t.id, some w1, "user", b1⟩],
        nextMsgId := db.nextMsgId + 1 },
      [⟨t, chatForAI t { db with
        messages := db.messages ++ [⟨db.nextMsgId, t.id, some w1, "user", b1⟩],
        nextMsgId := db.nextMsgId + 1 }, .str s1⟩], 2⟩, ?_, rfl, rfl⟩
    have hproc : webhookProcess (fun n => n == 1)
        (webhookPayload t.phone_id [inboundMsg s1 b1 w1, inboundMsg s2 b2 w2]) db =
        .ok ⟨{ db with
          messages := db.messages ++ [⟨db.nextMsgId, t.id, some w1, "user", b1⟩],
          nextMsgId := db.nextMsgId + 1 },
        [⟨t, chatForAI t { db with
          messages := db.messages ++ [⟨db.nextMsgId, t.id, some w1, "user", b1⟩],
          nextMsgId := db.nextMsgId + 1 }, .str s1⟩], 2⟩ := by
      rw [webhookProcess_payload (fun n => n == 1) db t _ hpn ht]
      simp only [List.foldlM_cons, List.foldlM_nil, except_ok_bind,
        List.nil_append, Nat.zero_add,
        processMessage_good (fun n => n == 1) t ⟨db, [], 0⟩ s1 b1 w1 _ hs1 hb1 hw1 hf1 hins1,
        processMessage_insertFail (fun n => n == 1) t
          ⟨{ db with
              messages := db.messages ++ [⟨db.nextMsgId, t.id, some w1, "user", b1⟩],
              nextMsgId := db.nextMsgId + 1 },
            [⟨t, chatForAI t { db with
              messages := db.messages ++ [⟨db.nextMsgId, t.id, some w1, "user", b1⟩],
              nextMsgId := db.nextMsgId + 1 }, .str s1⟩], 1⟩
          s2 b2 w2 .otherError hs2 hb2 hw2 hfree2 hins2]
      rfl
    simp [webhook_handler, hproc]

/-- C7 witness: the two-message payload with a malformed second message
on the concrete store persists one row and returns 200. -/
theorem partial_batch_witness :
    ∃ st, webhook_handler noFailOracle
        (some (webhookPayload tenant1.phone_id
          [inboundMsg "a" "hi" "w1", malformedMsg "b" "w2"])) exampleDB =
        .ok 200 "received" st ∧
      st.db.messages = exampleDB.messages ++ [⟨0, "t1", some "w1", "user", "hi"⟩] ∧
      st.jobs.length = 1 :=
  (partial_batch exampleDB tenant1 (by decide) rfl "a" "hi" "w1" "b" "x" "w2"
    (by decide) (by decide) (by decide) (by decide) (by decide) (by decide) (by decide)
    rfl rfl).1
